import Mathlib

/-!
Shallow embedding of the receipt-extraction pipeline of
`src/expense_tracker.py` (function `process_receipt`, lines 55-133).

The pipeline receives the decoded model output (a string) and the
original receipt text (a string), strips an echoed assistant marker,
extracts the brace-delimited envelope with the regex `\{.*\}` (DOTALL),
parses it with `json.loads`, and then repairs a malformed `total` field:
Path A reads a number after a case-insensitive `TOTAL:` anchor in the
original receipt text; Path B sums `quantity * price` over the `items`
list, skipping items whose fields raise ValueError or TypeError.

Modelling conventions:
* Python/JSON numbers are modelled by `Q`, an exact rational kept in
  lowest terms, so that every arithmetic step reduces inside the Lean
  kernel.  Non-finite float literals (`inf`, `nan`, `Infinity`, `NaN`)
  and digit-separator underscores accepted by Python's `float()` and
  `json.loads` are outside the rational model and are treated as parse
  failures here; no claim in this development touches them.
* Python booleans are instances of `int` (`isinstance(True, int)` is
  `True`), so the numeric-type test of line 92 accepts them; the model
  keeps a separate boolean constructor and lets the type test accept it.
* Exceptions are modelled with `Except`: the kinds that can actually
  arise in the modelled region are `ValueError`, `TypeError` and
  `AttributeError`; only `json.JSONDecodeError` is caught by the outer
  handler (line 128), which the orchestrator models as a typed result.
-/

/-- Exact rational number: integer numerator over natural denominator.
All values built by the definitions below are normalized (denominator
positive, fraction in lowest terms), so structural equality is value
equality on them. -/
structure Q where
  num : Int
  den : Nat
deriving DecidableEq

/-- Normalize a fraction with integer numerator and denominator into a
`Q` in lowest terms with positive denominator (junk value 0 on a zero
denominator, which no reachable computation produces). -/
def mkQ (n d : Int) : Q :=
  if d = 0 then ⟨0, 1⟩
  else
    let n' : Int := if d < 0 then -n else n
    let d' : Nat := d.natAbs
    let g : Nat := Nat.gcd n'.natAbs d'
    ⟨n' / (g : Int), d' / g⟩

/-- Embed a natural number. -/
def Q.ofNat (n : Nat) : Q := ⟨n, 1⟩

/-- Embed an integer. -/
def Q.ofInt (n : Int) : Q := ⟨n, 1⟩

/-- Rational addition. -/
def Q.add (a b : Q) : Q :=
  mkQ (a.num * b.den + b.num * a.den) (a.den * b.den)

/-- Rational multiplication. -/
def Q.mul (a b : Q) : Q := mkQ (a.num * b.num) (a.den * b.den)

/-- Rational division. -/
def Q.div (a b : Q) : Q := mkQ (a.num * b.den) (a.den * b.num)

/-- Rational negation (normalization is preserved). -/
def Q.neg (a : Q) : Q := ⟨-a.num, a.den⟩

/-- Signed power of ten, for float exponents. -/
def Q.pow10 (e : Int) : Q :=
  if 0 ≤ e then ⟨(10 : Int) ^ e.toNat, 1⟩ else ⟨1, 10 ^ (-e).toNat⟩

/-- Floor of a rational. -/
def Q.floor (a : Q) : Int := Int.fdiv a.num a.den

/-- Generic JSON/Python value, as produced by `json.loads`. -/
inductive Json where
  | jnull : Json
  | jbool : Bool → Json
  | jnum : Q → Json
  | jstr : String → Json
  | jarr : List Json → Json
  | jobj : List (String × Json) → Json

/-- Exception kinds that can escape the modelled code region. -/
inductive PyExc where
  | valueError : PyExc
  | typeError : PyExc
  | attributeError : PyExc
deriving DecidableEq

/-- Python `dict.get(key)`: first binding of the key (the JSON object
parser below keeps keys unique, later duplicates overwriting in place,
as `json.loads` does). -/
def getKey : List (String × Json) → String → Option Json
  | [], _ => none
  | (k, v) :: rest, key => if k = key then some v else getKey rest key

/-- Python `d[key] = v`: overwrite in place if present, else append
(dict insertion order). -/
def upsert : List (String × Json) → String → Json → List (String × Json)
  | [], key, v => [(key, v)]
  | (k, w) :: rest, key, v =>
      if k = key then (key, v) :: rest else (k, w) :: upsert rest key v

/-- Python `del d[key]`. -/
def eraseKey (kvs : List (String × Json)) (key : String) :
    List (String × Json) :=
  kvs.filter fun p => p.1 ≠ key

/-- Field lookup on a Json value; `none` on non-objects. -/
def Json.getKeyJ : Json → String → Option Json
  | .jobj kvs, key => getKey kvs key
  | _, _ => none

/-- Whitespace stripped by Python's `str.strip()` / `float()` and matched
by the regex class `\s` (ASCII part). -/
def isSpaceChar (c : Char) : Bool :=
  c = ' ' || c = '\t' || c = '\n' || c = '\r' || c = '\x0b' || c = '\x0c'

/-- Character class `[\d\.]` of the anchor regex at line 97. -/
def isDigitDot (c : Char) : Bool :=
  c.isDigit || c = '.'

/-- Decimal value of a digit string. -/
def digitsVal (ds : List Char) : Nat :=
  ds.foldl (fun a c => a * 10 + (c.toNat - 48)) 0

/-- Parse an optionally signed all-digit string into an integer
(exponent part of a float literal); fails on anything left over. -/
def parseDigitsInt (sgn : Int) (r : List Char) : Option Int :=
  let ds := r.takeWhile Char.isDigit
  if ds = [] ∨ r.dropWhile Char.isDigit ≠ [] then none
  else some (sgn * (digitsVal ds : Int))

/-- Optional sign before the exponent digits. -/
def parseSignedDigits (cs : List Char) : Option Int :=
  match cs with
  | '+' :: r => parseDigitsInt 1 r
  | '-' :: r => parseDigitsInt (-1) r
  | _ => parseDigitsInt 1 cs

/-- Optional exponent tail `e`/`E` followed by signed digits; empty
input means exponent 0. -/
def parseExpTail (cs : List Char) : Option Int :=
  match cs with
  | [] => some 0
  | 'e' :: r => parseSignedDigits r
  | 'E' :: r => parseSignedDigits r
  | _ => none

/-- Scale a mantissa by a signed power of ten. -/
def applyExp (m : Q) (e : Int) : Q := m.mul (Q.pow10 e)

/-- Mantissa value `intPart.fracPart`. -/
def mantissaVal (intDs fracDs : List Char) : Q :=
  (Q.ofNat (digitsVal intDs)).add
    ((Q.ofNat (digitsVal fracDs)).div (Q.ofNat (10 ^ fracDs.length)))

/-- Unsigned float literal: `digits [. digits] [exp]` or `. digits [exp]`,
with at least one digit overall, as accepted by Python's `float()`. -/
def parseUFloat (cs : List Char) : Option Q :=
  let intDs := cs.takeWhile Char.isDigit
  let r1 := cs.dropWhile Char.isDigit
  match r1 with
  | '.' :: r2 =>
    let fracDs := r2.takeWhile Char.isDigit
    let r3 := r2.dropWhile Char.isDigit
    if intDs = [] ∧ fracDs = [] then none
    else
      match parseExpTail r3 with
      | none => none
      | some e => some (applyExp (mantissaVal intDs fracDs) e)
  | _ =>
    if intDs = [] then none
    else
      match parseExpTail r1 with
      | none => none
      | some e => some (applyExp (Q.ofNat (digitsVal intDs)) e)

/-- Python `float(s)` on a string: strip surrounding whitespace, optional
sign, finite decimal literal (see the module comment for the scope of
the model). `none` models a raised `ValueError`. -/
def pyFloatOfString (s : String) : Option Q :=
  let cs := ((s.data.dropWhile isSpaceChar).reverse.dropWhile
      isSpaceChar).reverse
  match cs with
  | '+' :: r => parseUFloat r
  | '-' :: r => (parseUFloat r).map Q.neg
  | _ => parseUFloat cs

/-- Python `float(x)` on a generic value (lines 111-112): numbers pass
through, booleans coerce to 0/1, strings are parsed, everything else
raises `TypeError`; an unparseable string raises `ValueError`. -/
def coerceFloat : Json → Except PyExc Q
  | .jnum q => .ok q
  | .jbool b => .ok (if b then Q.ofNat 1 else Q.ofNat 0)
  | .jstr s =>
      match pyFloatOfString s with
      | some q => .ok q
      | none => .error .valueError
  | .jnull => .error .typeError
  | .jarr _ => .error .typeError
  | .jobj _ => .error .typeError

/-- Attempt to match `TOTAL:\s*([\d\.]+)` (IGNORECASE) at the head of the
character list; on success return the captured group. -/
def anchorGroupAt (cs : List Char) : Option String :=
  match cs with
  | c1 :: c2 :: c3 :: c4 :: c5 :: c6 :: rest =>
      if c1.toLower = 't' ∧ c2.toLower = 'o' ∧ c3.toLower = 't' ∧
          c4.toLower = 'a' ∧ c5.toLower = 'l' ∧ c6 = ':' then
        if (rest.dropWhile isSpaceChar).takeWhile isDigitDot = [] then none
        else some (String.mk ((rest.dropWhile isSpaceChar).takeWhile
          isDigitDot))
      else none
  | _ => none

/-- Leftmost match of the anchor pattern: try each start position in
order, as the regex engine of `re.search` does. -/
def scanAnchor : List Char → Option String
  | [] => none
  | c :: rest =>
      match anchorGroupAt (c :: rest) with
      | some g => some g
      | none => scanAnchor rest

/-- Model of `re.search(r'TOTAL:\s*([\d\.]+)', receipt_text, re.IGNORECASE)`
at line 97: the captured group of the leftmost match, if any. -/
def totalAnchorMatch (s : String) : Option String :=
  scanAnchor s.data

/-- Round a rational to the nearest integer, ties to even (Python's
`round`). -/
def roundHalfEven (q : Q) : Int :=
  let f := q.floor
  let rnum := q.num - f * q.den
  if rnum * 2 < (q.den : Int) then f
  else if (q.den : Int) < rnum * 2 then f + 1
  else if f % 2 = 0 then f else f + 1

/-- Python `round(x, 2)` (line 117), on the rational model. -/
def round2 (q : Q) : Q :=
  (Q.ofInt (roundHalfEven (q.mul (Q.ofNat 100)))).div (Q.ofNat 100)

/-- Body of the inner `try` of lines 110-115 for one item that is a
dict: coerce `quantity` (default 0.0) and `price` (default 0.0) to
float and multiply; a `ValueError`/`TypeError` from either coercion is
caught by the inner handler, the item contributing nothing. -/
def tryItemFloat (m : List (String × Json)) : Q :=
  match coerceFloat ((getKey m "quantity").getD (.jnum (Q.ofNat 0))),
      coerceFloat ((getKey m "price").getD (.jnum (Q.ofNat 0))) with
  | .ok q, .ok p => q.mul p
  | _, _ => Q.ofNat 0

/-- Contribution of one element of the `items` iteration (lines 109-115):
a dict contributes `tryItemFloat`; calling `.get` on any non-dict raises
`AttributeError`, which the inner handler does not catch. -/
def itemContrib : Json → Except PyExc Q
  | .jobj m => .ok (tryItemFloat m)
  | _ => .error .attributeError

/-- Python iteration over a value (the `for item in ...` at line 109):
lists yield elements, strings yield one-character strings, dicts yield
their keys, everything else raises `TypeError`. -/
def iterPy : Json → Except PyExc (List Json)
  | .jarr xs => .ok xs
  | .jstr s => .ok (s.data.map fun c => .jstr (String.mk [c]))
  | .jobj kvs => .ok (kvs.map fun p => .jstr p.1)
  | _ => .error .typeError

/-- Left-to-right accumulation of item contributions, propagating an
uncaught exception. -/
def sumList : List Json → Q → Except PyExc Q
  | [], acc => .ok acc
  | x :: xs, acc =>
      match itemContrib x with
      | .error e => .error e
      | .ok c => sumList xs (acc.add c)

/-- The whole Recovery Path B loop (lines 108-115) over
`json_output.get('items', [])`. -/
def sumItems : Option Json → Except PyExc Q
  | none => .ok (Q.ofNat 0)
  | some v =>
      match iterPy v with
      | .error e => .error e
      | .ok xs => sumList xs (Q.ofNat 0)

/-- Python `isinstance(v, (int, float))` on a value: numbers and
booleans pass (bool is a subclass of int in Python). -/
def isNumVal : Json → Bool
  | .jnum _ => true
  | .jbool _ => true
  | _ => false

/-- The type test of line 92 applied to `json_output.get('total')`
(`None` when the key is absent, which fails the test). -/
def isNumPy : Option Json → Bool
  | some v => isNumVal v
  | none => false

/-- Final cleanup of lines 122-124: if the `total` key holds a list,
delete it. -/
def afterListCheck (obj : Json) : Json :=
  match obj with
  | .jobj kvs =>
      match getKey kvs "total" with
      | some (.jarr _) => .jobj (eraseKey kvs "total")
      | _ => obj
  | _ => obj

/-- The total-repair region of `process_receipt` (lines 90-126), from
the parsed object and the original receipt text to either the returned
object or an uncaught exception.  Path A (lines 97-105) reads the
anchor match from the receipt text, falling back to 0.0 when the
captured literal does not parse as a float; Path B (lines 107-118) sums
the items.  Calling `.get` on a non-dict raises `AttributeError`. -/
def repairObj (kvs : List (String × Json)) (receiptText : String) :
    Except PyExc Json :=
  if isNumPy (getKey kvs "total") then
    .ok (afterListCheck (.jobj kvs))
  else
    match totalAnchorMatch receiptText with
    | some grp =>
        .ok (afterListCheck (.jobj (upsert kvs "total"
          (.jnum ((pyFloatOfString grp).getD (Q.ofNat 0))))))
    | none =>
        match sumItems (getKey kvs "items") with
        | .error e => .error e
        | .ok s =>
            .ok (afterListCheck (.jobj (upsert kvs "total"
              (.jnum (round2 s)))))

/-- Dispatch on the parsed value: only a dict supports the `.get` calls;
anything else raises `AttributeError` (unreachable from `jsonParse`,
whose top-level value inside a brace envelope is always an object). -/
def repair : Json → String → Except PyExc Json
  | .jobj kvs, receiptText => repairObj kvs receiptText
  | _, _ => .error .attributeError

/-- JSON inter-token whitespace of `json.loads` (space, tab, newline,
carriage return). -/
def isJsonWs (c : Char) : Bool :=
  c = ' ' || c = '\t' || c = '\n' || c = '\r'

/-- Drop leading JSON whitespace. -/
def skipWs (cs : List Char) : List Char :=
  cs.dropWhile isJsonWs

/-- Hex digit value for a string escape. -/
def hexVal (c : Char) : Option Nat :=
  if c.isDigit then some (c.toNat - 48)
  else if 'a' ≤ c ∧ c ≤ 'f' then some (c.toNat - 87)
  else if 'A' ≤ c ∧ c ≤ 'F' then some (c.toNat - 55)
  else none

/-- Body of a JSON string after the opening quote: characters up to the
closing quote, with the standard escapes; unescaped control characters
are rejected, as `json.loads` does in strict mode.  Lone surrogate
escapes are outside the model. -/
def parseStrChars : List Char → Option (List Char × List Char)
  | [] => none
  | '"' :: r => some ([], r)
  | '\\' :: r =>
      match r with
      | '"' :: r2 => (parseStrChars r2).map fun p => ('"' :: p.1, p.2)
      | '\\' :: r2 => (parseStrChars r2).map fun p => ('\\' :: p.1, p.2)
      | '/' :: r2 => (parseStrChars r2).map fun p => ('/' :: p.1, p.2)
      | 'b' :: r2 => (parseStrChars r2).map fun p => ('\x08' :: p.1, p.2)
      | 'f' :: r2 => (parseStrChars r2).map fun p => ('\x0c' :: p.1, p.2)
      | 'n' :: r2 => (parseStrChars r2).map fun p => ('\n' :: p.1, p.2)
      | 'r' :: r2 => (parseStrChars r2).map fun p => ('\r' :: p.1, p.2)
      | 't' :: r2 => (parseStrChars r2).map fun p => ('\t' :: p.1, p.2)
      | 'u' :: h1 :: h2 :: h3 :: h4 :: r2 =>
          match hexVal h1, hexVal h2, hexVal h3, hexVal h4 with
          | some a, some b, some c, some d =>
              (parseStrChars r2).map fun p =>
                (Char.ofNat (((a * 16 + b) * 16 + c) * 16 + d) :: p.1, p.2)
          | _, _, _, _ => none
      | _ => none
  | c :: r =>
      if c.toNat < 32 then none
      else (parseStrChars r).map fun p => (c :: p.1, p.2)

/-- JSON number grammar of `json.loads`:
`-? (0 | [1-9][0-9]*) (\.[0-9]+)? ([eE][+-]?[0-9]+)?`, value as an
exact rational. -/
def parseJNumber (cs : List Char) : Option (Q × List Char) :=
  let signed : Bool := cs.head? = some '-'
  let cs1 := if signed then cs.drop 1 else cs
  let intDs := cs1.takeWhile Char.isDigit
  let r1 := cs1.dropWhile Char.isDigit
  if intDs = [] then none
  else if intDs.head? = some '0' ∧ intDs.length ≠ 1 then none
  else
    match r1 with
    | '.' :: r2 =>
        let fracDs := r2.takeWhile Char.isDigit
        if fracDs = [] then none
        else finishNum signed (mantissaVal intDs fracDs)
          (r2.dropWhile Char.isDigit)
    | _ => finishNum signed (Q.ofNat (digitsVal intDs)) r1
where
  /-- Apply an optional exponent and the sign, returning the remainder. -/
  finishNum (signed : Bool) (mantissa : Q) (r : List Char) :
      Option (Q × List Char) :=
    let core : Option (Q × List Char) :=
      match r with
      | 'e' :: r2 => expDigits mantissa r2
      | 'E' :: r2 => expDigits mantissa r2
      | _ => some (mantissa, r)
    core.map fun p => (if signed then p.1.neg else p.1, p.2)
  /-- Signed digit run after the exponent marker. -/
  expDigits (mantissa : Q) (r : List Char) : Option (Q × List Char) :=
    let negE : Bool := r.head? = some '-'
    let r2 := if r.head? = some '-' ∨ r.head? = some '+' then r.drop 1 else r
    let ds := r2.takeWhile Char.isDigit
    if ds = [] then none
    else
      some (applyExp mantissa
        (if negE then -(digitsVal ds : Int) else (digitsVal ds : Int)),
        r2.dropWhile Char.isDigit)

/-- Parser mode: a value, or the member/element loop of an object/array
with the bindings read so far. -/
inductive PMode where
  | val : PMode
  | objRest : List (String × Json) → PMode
  | arrRest : List Json → PMode

/-- Fuel-indexed recursive-descent parser for the JSON grammar accepted
by `json.loads` (minus the non-finite literals noted in the module
comment).  In mode `val` the input starts at a value (leading whitespace
already skipped); the loop modes expect the next member/element. -/
def parseStep : Nat → PMode → List Char → Option (Json × List Char)
  | 0, _, _ => none
  | fuel + 1, .val, cs =>
      match cs with
      | '{' :: r =>
          match skipWs r with
          | '}' :: r2 => some (.jobj [], r2)
          | r2 => parseStep fuel (.objRest []) r2
      | '[' :: r =>
          match skipWs r with
          | ']' :: r2 => some (.jarr [], r2)
          | r2 => parseStep fuel (.arrRest []) r2
      | '"' :: r =>
          (parseStrChars r).map fun p => (.jstr (String.mk p.1), p.2)
      | 't' :: 'r' :: 'u' :: 'e' :: r => some (.jbool true, r)
      | 'f' :: 'a' :: 'l' :: 's' :: 'e' :: r => some (.jbool false, r)
      | 'n' :: 'u' :: 'l' :: 'l' :: r => some (.jnull, r)
      | _ => (parseJNumber cs).map fun p => (.jnum p.1, p.2)
  | fuel + 1, .objRest acc, cs =>
      match cs with
      | '"' :: r =>
          match parseStrChars r with
          | none => none
          | some (kcs, r2) =>
              match skipWs r2 with
              | ':' :: r3 =>
                  match parseStep fuel .val (skipWs r3) with
                  | none => none
                  | some (v, r4) =>
                      let acc2 := upsert acc (String.mk kcs) v
                      match skipWs r4 with
                      | ',' :: r5 => parseStep fuel (.objRest acc2) (skipWs r5)
                      | '}' :: r5 => some (.jobj acc2, r5)
                      | _ => none
              | _ => none
      | _ => none
  | fuel + 1, .arrRest acc, cs =>
      match parseStep fuel .val cs with
      | none => none
      | some (v, r) =>
          match skipWs r with
          | ',' :: r2 => parseStep fuel (.arrRest (acc ++ [v])) (skipWs r2)
          | ']' :: r2 => some (.jarr (acc ++ [v]), r2)
          | _ => none

/-- Model of `json.loads` (line 86): parse one value surrounded only by
whitespace; `none` models a raised `json.JSONDecodeError`. -/
def jsonParse (s : String) : Option Json :=
  match parseStep (2 * s.data.length + 4) .val (skipWs s.data) with
  | some (v, rest) => if skipWs rest = [] then some v else none
  | none => none

/-- Index of the first occurrence of a character. -/
def firstIdx (a : Char) : List Char → Option Nat
  | [] => none
  | c :: cs => if c = a then some 0 else (firstIdx a cs).map (· + 1)

/-- Index of the last occurrence of a character. -/
def lastIdx (a : Char) : List Char → Option Nat
  | [] => none
  | c :: cs =>
      match lastIdx a cs with
      | some j => some (j + 1)
      | none => if c = a then some 0 else none

/-- Model of `re.search(r'\{.*\}', text, re.DOTALL)` (line 78): the
engine tries start positions left to right; from an opening brace the
greedy `.*` backtracks to the last closing brace of the whole input, so
a match starts at the first opening brace that still has a closing
brace after it.  Returns the pair of match-start and match-end
indices. -/
def braceSearch (cs : List Char) : Option (Nat × Nat) :=
  match lastIdx '}' cs with
  | none => none
  | some j =>
      match firstIdx '{' (cs.take j) with
      | none => none
      | some i => some (i, j)

/-- Lines 77-85: the extracted envelope `match.group(0)`, or `none` when
`re.search` finds no match. -/
def extract (t : String) : Option String :=
  (braceSearch t.data).map fun p =>
    String.mk ((t.data.drop p.1).take (p.2 + 1 - p.1))

/-- Longest suffix of `cs` immediately preceded by an occurrence of
`sep`; `none` when `sep` does not occur.  This is the last element of
Python's `text.split(sep)` when `sep` occurs (the separator cannot
overlap itself). -/
def afterLastSep (sep : List Char) : List Char → Option (List Char)
  | [] => none
  | c :: rest =>
      match afterLastSep sep rest with
      | some r => some r
      | none =>
          if sep.isPrefixOf (c :: rest) then some ((c :: rest).drop sep.length)
          else none

/-- Python `str.strip()`. -/
def pyStrip (cs : List Char) : List Char :=
  ((cs.dropWhile isSpaceChar).reverse.dropWhile isSpaceChar).reverse

/-- Lines 72-73: if the decoded output contains the assistant marker,
keep only the text after its last occurrence, stripped. -/
def stripAssistant (t : String) : String :=
  match afterLastSep "<|assistant|>".data t.data with
  | some r => String.mk (pyStrip r)
  | none => t

/-- Typed outcome of one pipeline run, as seen by the caller of
`process_receipt`: a returned object, the two reported non-fatal
failures (each `return None` carries what was written to the UI for
diagnostics), or an exception escaping the function. -/
inductive PipelineResult where
  | ok : Json → PipelineResult
  | notFound : String → PipelineResult
  | invalidJson : String → String → PipelineResult
  | pythonError : PyExc → PipelineResult

/-- The post-generation part of `process_receipt` (lines 70-133), from
the decoded model output and the original receipt text to a typed
outcome.  Only `json.JSONDecodeError` is caught by the outer handler;
any other exception raised inside the `try` block escapes as
`pythonError`. -/
def process_receipt (textOutput receiptText : String) : PipelineResult :=
  match extract (stripAssistant textOutput) with
  | none => .notFound (stripAssistant textOutput)
  | some cand =>
      match jsonParse cand with
      | none => .invalidJson (stripAssistant textOutput) cand
      | some obj =>
          match repair obj receiptText with
          | .ok r => .ok r
          | .error e => .pythonError e

/-- Test for a JSON object (Python dict). -/
def isObjB : Json → Bool
  | .jobj _ => true
  | _ => false

/-- Shape of an `items` field on which the Path B loop cannot raise:
absent, or a list every element of which is an object. -/
def itemsListOfObjects : Option Json → Bool
  | none => true
  | some (.jarr xs) => xs.all isObjB
  | _ => false

/-- A parsed object whose `items` field (if the repair loop reaches it)
is absent or a list of objects. -/
def safeItems : Json → Bool
  | .jobj kvs => itemsListOfObjects (getKey kvs "items")
  | _ => false

/-- The object the pipeline hands to the repair step on input `out`:
the parse of the extracted envelope, when both steps succeed. -/
def parsedOf (out : String) : Option Json :=
  match extract (stripAssistant out) with
  | some cand => jsonParse cand
  | none => none

/-- Spec-side value of one item of Recovery Path B: `quantity * price`
when both fields coerce to float, 0 for a skipped item. -/
def itemValue : Json → Q
  | .jobj m => tryItemFloat m
  | _ => Q.ofNat 0

/-- Spec-side accumulated sum of Recovery Path B over an item list. -/
def itemsSpecSum (xs : List Json) : Q :=
  xs.foldl (fun acc x => acc.add (itemValue x)) (Q.ofNat 0)

theorem getKey_upsert_self (kvs : List (String × Json)) (key : String)
    (v : Json) : getKey (upsert kvs key v) key = some v := by
  induction kvs with
  | nil => simp [upsert, getKey]
  | cons p rest ih =>
      obtain ⟨k, w⟩ := p
      by_cases hk : k = key
      · simp [upsert, hk, getKey]
      · simp [upsert, hk, getKey, ih]

theorem afterListCheck_eq_of_num (kvs : List (String × Json))
    (h : isNumPy (getKey kvs "total") = true) :
    afterListCheck (.jobj kvs) = .jobj kvs := by
  cases hg : getKey kvs "total" with
  | none => simp [afterListCheck, hg]
  | some v =>
      cases v with
      | jarr xs => rw [hg] at h; simp [isNumPy, isNumVal] at h
      | jnull => simp [afterListCheck, hg]
      | jbool b => simp [afterListCheck, hg]
      | jnum q => simp [afterListCheck, hg]
      | jstr s => simp [afterListCheck, hg]
      | jobj o => simp [afterListCheck, hg]

theorem repair_of_num (kvs : List (String × Json)) (rcpt : String)
    (h : isNumPy (getKey kvs "total") = true) :
    repair (.jobj kvs) rcpt = .ok (.jobj kvs) := by
  show repairObj kvs rcpt = _
  unfold repairObj
  rw [h, if_pos rfl, afterListCheck_eq_of_num kvs h]

theorem repair_of_anchor (kvs : List (String × Json)) (rcpt : String)
    (grp : String) (h1 : isNumPy (getKey kvs "total") = false)
    (h2 : totalAnchorMatch rcpt = some grp) :
    repair (.jobj kvs) rcpt = .ok (.jobj (upsert kvs "total"
      (.jnum ((pyFloatOfString grp).getD (Q.ofNat 0))))) := by
  show repairObj kvs rcpt = _
  unfold repairObj
  rw [h1, h2]
  simp only [Bool.false_eq_true, if_false]
  rw [afterListCheck_eq_of_num _ (by rw [getKey_upsert_self]; rfl)]

theorem repair_of_sum (kvs : List (String × Json)) (rcpt : String) (s : Q)
    (h1 : isNumPy (getKey kvs "total") = false)
    (h2 : totalAnchorMatch rcpt = none)
    (h3 : sumItems (getKey kvs "items") = .ok s) :
    repair (.jobj kvs) rcpt =
      .ok (.jobj (upsert kvs "total" (.jnum (round2 s)))) := by
  show repairObj kvs rcpt = _
  unfold repairObj
  rw [h1, h2, h3]
  simp only [Bool.false_eq_true, if_false]
  rw [afterListCheck_eq_of_num _ (by rw [getKey_upsert_self]; rfl)]

theorem repair_of_sum_err (kvs : List (String × Json)) (rcpt : String)
    (e : PyExc) (h1 : isNumPy (getKey kvs "total") = false)
    (h2 : totalAnchorMatch rcpt = none)
    (h3 : sumItems (getKey kvs "items") = .error e) :
    repair (.jobj kvs) rcpt = .error e := by
  show repairObj kvs rcpt = _
  unfold repairObj
  rw [h1, h2, h3]
  simp only [Bool.false_eq_true, if_false]

theorem repair_ok_inv (obj : Json) (rcpt : String) (r : Json)
    (h : repair obj rcpt = .ok r) :
    ∃ kvs, r = .jobj kvs ∧ isNumPy (getKey kvs "total") = true := by
  cases obj with
  | jobj kvs =>
      by_cases hn : isNumPy (getKey kvs "total") = true
      · rw [repair_of_num kvs rcpt hn] at h
        injection h with h2
        exact ⟨kvs, h2.symm, hn⟩
      · have hn' : isNumPy (getKey kvs "total") = false := by
          revert hn; cases isNumPy (getKey kvs "total") <;> simp
        cases ha : totalAnchorMatch rcpt with
        | some grp =>
            rw [repair_of_anchor kvs rcpt grp hn' ha] at h
            injection h with h2
            refine ⟨_, h2.symm, ?_⟩
            rw [getKey_upsert_self]; rfl
        | none =>
            cases hs : sumItems (getKey kvs "items") with
            | error e =>
                rw [repair_of_sum_err kvs rcpt e hn' ha hs] at h
                exact absurd h (by simp)
            | ok s =>
                rw [repair_of_sum kvs rcpt s hn' ha hs] at h
                injection h with h2
                refine ⟨_, h2.symm, ?_⟩
                rw [getKey_upsert_self]; rfl
  | jnull => simp [repair] at h
  | jbool b => simp [repair] at h
  | jnum q => simp [repair] at h
  | jstr s => simp [repair] at h
  | jarr xs => simp [repair] at h

theorem sumList_spec (xs : List Json) (acc : Q) (h : xs.all isObjB = true) :
    sumList xs acc = .ok (xs.foldl (fun a x => a.add (itemValue x)) acc) := by
  induction xs generalizing acc with
  | nil => rfl
  | cons x xs ih =>
      rw [List.all_cons, Bool.and_eq_true] at h
      obtain ⟨hx, hxs⟩ := h
      cases x with
      | jobj m =>
          simp only [sumList, itemContrib, List.foldl_cons, itemValue]
          exact ih _ hxs
      | jnull => simp [isObjB] at hx
      | jbool b => simp [isObjB] at hx
      | jnum q => simp [isObjB] at hx
      | jstr s => simp [isObjB] at hx
      | jarr ys => simp [isObjB] at hx

theorem sumItems_jarr (xs : List Json) (h : xs.all isObjB = true) :
    sumItems (some (.jarr xs)) = .ok (itemsSpecSum xs) := by
  simp only [sumItems, iterPy]
  rw [sumList_spec xs _ h]
  rfl

theorem repair_ok_of_safe (obj : Json) (rcpt : String)
    (h : safeItems obj = true) : ∃ r, repair obj rcpt = .ok r := by
  cases obj with
  | jobj kvs =>
      by_cases hn : isNumPy (getKey kvs "total") = true
      · exact ⟨_, repair_of_num kvs rcpt hn⟩
      · have hn' : isNumPy (getKey kvs "total") = false := by
          revert hn; cases isNumPy (getKey kvs "total") <;> simp
        cases ha : totalAnchorMatch rcpt with
        | some grp => exact ⟨_, repair_of_anchor kvs rcpt grp hn' ha⟩
        | none =>
            simp only [safeItems] at h
            cases hk : getKey kvs "items" with
            | none =>
                exact ⟨_, repair_of_sum kvs rcpt (Q.ofNat 0) hn' ha
                  (by rw [hk]; rfl)⟩
            | some v =>
                rw [hk] at h
                cases v with
                | jarr xs =>
                    exact ⟨_, repair_of_sum kvs rcpt (itemsSpecSum xs) hn' ha
                      (by rw [hk]; exact sumItems_jarr xs h)⟩
                | jnull => simp [itemsListOfObjects] at h
                | jbool b => simp [itemsListOfObjects] at h
                | jnum q => simp [itemsListOfObjects] at h
                | jstr s => simp [itemsListOfObjects] at h
                | jobj o => simp [itemsListOfObjects] at h
  | jnull => simp [safeItems] at h
  | jbool b => simp [safeItems] at h
  | jnum q => simp [safeItems] at h
  | jstr s => simp [safeItems] at h
  | jarr xs => simp [safeItems] at h

theorem firstIdx_take_lt (a : Char) (cs : List Char) (i j : Nat)
    (h : firstIdx a cs = some i) (hij : i < j) :
    firstIdx a (cs.take j) = some i := by
  induction cs generalizing i j with
  | nil => simp [firstIdx] at h
  | cons c cs ih =>
      by_cases hc : c = a
      · rw [firstIdx, if_pos hc] at h
        injection h with h2
        cases j with
        | zero => omega
        | succ j' => rw [List.take_succ_cons, firstIdx, if_pos hc, h2]
      · rw [firstIdx, if_neg hc] at h
        cases hf : firstIdx a cs with
        | none => rw [hf] at h; exact Option.noConfusion h
        | some i' =>
            rw [hf] at h
            simp only [Option.map_some'] at h
            injection h with h2
            cases j with
            | zero => omega
            | succ j' =>
                rw [List.take_succ_cons, firstIdx, if_neg hc,
                  ih i' j' hf (by omega), Option.map_some', h2]

theorem firstIdx_take_ge (a : Char) (cs : List Char) (i j : Nat)
    (h : firstIdx a cs = some i) (hij : j ≤ i) :
    firstIdx a (cs.take j) = none := by
  induction cs generalizing i j with
  | nil => simp [firstIdx] at h
  | cons c cs ih =>
      cases j with
      | zero => simp [firstIdx]
      | succ j' =>
          by_cases hc : c = a
          · rw [firstIdx, if_pos hc] at h
            injection h with h2
            omega
          · rw [firstIdx, if_neg hc] at h
            cases hf : firstIdx a cs with
            | none => rw [hf] at h; exact Option.noConfusion h
            | some i' =>
                rw [hf] at h
                simp only [Option.map_some'] at h
                injection h with h2
                rw [List.take_succ_cons, firstIdx, if_neg hc,
                  ih i' j' hf (by omega)]
                rfl

theorem firstIdx_take_none (a : Char) (cs : List Char) (j : Nat)
    (h : firstIdx a cs = none) : firstIdx a (cs.take j) = none := by
  induction cs generalizing j with
  | nil => simp [firstIdx]
  | cons c cs ih =>
      cases j with
      | zero => simp [firstIdx]
      | succ j' =>
          by_cases hc : c = a
          · rw [firstIdx, if_pos hc] at h; simp at h
          · rw [firstIdx, if_neg hc] at h
            cases hf : firstIdx a cs with
            | none =>
                rw [List.take_succ_cons, firstIdx, if_neg hc, ih j' hf]
                rfl
            | some i' => rw [hf] at h; simp at h

theorem scanAnchor_group (cs : List Char) (g : String)
    (h : scanAnchor cs = some g) :
    g.data ≠ [] ∧ ∀ c ∈ g.data, isDigitDot c = true := by
  induction cs with
  | nil => simp [scanAnchor] at h
  | cons c rest ih =>
      rw [scanAnchor] at h
      cases hA : anchorGroupAt (c :: rest) with
      | none => rw [hA] at h; exact ih h
      | some g2 =>
          rw [hA] at h
          injection h with h2
          subst h2
          unfold anchorGroupAt at hA
          split at hA
          · split at hA
            · split at hA
              · exact Option.noConfusion hA
              · rename_i hne
                injection hA with h3
                subst h3
                refine ⟨hne, ?_⟩
                intro ch hch
                exact List.mem_takeWhile_imp hch
            · exact Option.noConfusion hA
          · exact Option.noConfusion hA

/-- C1 (amended): JSON-parse failures are caught and become typed
results, and per-item ValueError/TypeError during field coercion is
skipped, so no exception escapes the pipeline provided the parsed
object's `items` field, when present, is a list of objects.  (As the
counterexample shows, the claim's unrestricted form is false: a
non-iterable `items` raises an uncaught TypeError, and a non-object
element raises an uncaught AttributeError.) -/
theorem pipeline_no_uncaught_exception_when_items_wellformed
    (out rcpt : String)
    (h : ∀ obj, parsedOf out = some obj → safeItems obj = true) :
    ∀ e : PyExc, process_receipt out rcpt ≠ .pythonError e := by
  intro e
  cases hx : extract (stripAssistant out) with
  | none => simp [process_receipt, hx]
  | some cand =>
      cases hp : jsonParse cand with
      | none => simp [process_receipt, hx, hp]
      | some obj =>
          have hobj : safeItems obj = true :=
            h obj (by rw [parsedOf, hx]; exact hp)
          obtain ⟨r, hr⟩ := repair_ok_of_safe obj rcpt hobj
          simp [process_receipt, hx, hp, hr]

/-- C1 counterexample: with a parsed object whose `items` field is the
number 5 and a non-numeric `total`, iterating `items` raises a
TypeError that no handler catches, so it escapes to the caller. -/
theorem pipeline_uncaught_typeerror_on_nonlist_items :
    process_receipt "\x7b\"total\": \"x\", \"items\": 5\x7d" "no anchor here" =
      .pythonError .typeError :=
  rfl

/-- C1 witness: a concrete run with well-formed items (absent) on which
the amended theorem applies. -/
theorem pipeline_no_uncaught_exception_witness :
    process_receipt "\x7b\"total\": \"x\"\x7d" "zzz" ≠
      PipelineResult.pythonError PyExc.typeError :=
  pipeline_no_uncaught_exception_when_items_wellformed
    "\x7b\"total\": \"x\"\x7d" "zzz"
    (fun obj hobj => by injection hobj with h2; rw [← h2]; rfl) .typeError

/-- C2 (amended): when `total` is not numeric, Recovery Path A assigns
the float parsed from the FIRST case-insensitive `TOTAL:` anchor match
of the receipt text; in particular, whenever that first match captures
the literal 21.82, the repaired total is exactly 21.82.  (As the
counterexample shows, the claim's form — any occurrence of
`TOTAL: 21.82` anywhere in the text forces total = 21.82 — is false
when an earlier anchor with a different number precedes it.) -/
theorem pathA_first_anchor_literal_21_82 (kvs : List (String × Json))
    (rcpt : String) (h1 : isNumPy (getKey kvs "total") = false)
    (h2 : totalAnchorMatch rcpt = some "21.82") :
    repair (.jobj kvs) rcpt =
      .ok (.jobj (upsert kvs "total" (.jnum (mkQ 2182 100)))) := by
  rw [repair_of_anchor kvs rcpt "21.82" h1 h2]
  rfl

/-- C2 counterexample: the receipt text contains `TOTAL: 21.82`, yet
repair assigns 5 (from the earlier `total: 5` anchor), not 21.82. -/
theorem pathA_earlier_anchor_overrides_21_82 :
    repair (.jobj [("total", .jstr "unknown")]) "total: 5 TOTAL: 21.82" =
      .ok (.jobj [("total", .jnum (mkQ 5 1))]) ∧
      mkQ 5 1 ≠ mkQ 2182 100 :=
  ⟨rfl, by decide⟩

/-- C2 witness: the spec's own example, where the first anchor match is
21.82. -/
theorem pathA_first_anchor_literal_21_82_witness :
    repair (.jobj [("total", .jstr "unknown")]) "TOTAL: 21.82" =
      .ok (.jobj [("total", .jnum (mkQ 2182 100))]) :=
  pathA_first_anchor_literal_21_82 [("total", .jstr "unknown")]
    "TOTAL: 21.82" rfl rfl

/-- C3: when `total` is not numeric and the receipt text has no anchor
match, Recovery Path B assigns `round(sum(quantity * price), 2)` over
the items (an absent `items` field counts as the empty sequence, and an
item whose `quantity`/`price` does not coerce to float contributes
nothing without aborting), provided every element of `items` is an
object (a non-object element instead raises, see C1). -/
theorem pathB_total_is_rounded_item_sum (kvs : List (String × Json))
    (rcpt : String) (xs : List Json)
    (h1 : isNumPy (getKey kvs "total") = false)
    (h2 : totalAnchorMatch rcpt = none)
    (h3 : getKey kvs "items" = some (.jarr xs) ∨
      (getKey kvs "items" = none ∧ xs = []))
    (h4 : xs.all isObjB = true) :
    repair (.jobj kvs) rcpt =
      .ok (.jobj (upsert kvs "total"
        (.jnum (round2 (itemsSpecSum xs))))) := by
  rcases h3 with h3 | ⟨h3, rfl⟩
  · exact repair_of_sum kvs rcpt _ h1 h2
      (by rw [h3]; exact sumItems_jarr xs h4)
  · exact repair_of_sum kvs rcpt _ h1 h2 (by rw [h3]; rfl)

/-- C3 witness: the spec's Milk/Bread example, with no anchor in the
original text; the computed total is 10.50. -/
theorem pathB_total_is_rounded_item_sum_witness :
    repair (.jobj [("items", .jarr [
        .jobj [("name", .jstr "Milk"), ("quantity", .jnum (Q.ofNat 1)),
          ("price", .jnum (mkQ 45 10))],
        .jobj [("name", .jstr "Bread"), ("quantity", .jnum (Q.ofNat 2)),
          ("price", .jnum (Q.ofNat 3))]])]) "Milk and Bread receipt" =
      .ok (.jobj [("items", .jarr [
        .jobj [("name", .jstr "Milk"), ("quantity", .jnum (Q.ofNat 1)),
          ("price", .jnum (mkQ 45 10))],
        .jobj [("name", .jstr "Bread"), ("quantity", .jnum (Q.ofNat 2)),
          ("price", .jnum (Q.ofNat 3))]]),
        ("total", .jnum (mkQ 105 10))]) :=
  pathB_total_is_rounded_item_sum _ "Milk and Bread receipt"
    [.jobj [("name", .jstr "Milk"), ("quantity", .jnum (Q.ofNat 1)),
        ("price", .jnum (mkQ 45 10))],
      .jobj [("name", .jstr "Bread"), ("quantity", .jnum (Q.ofNat 2)),
        ("price", .jnum (Q.ofNat 3))]]
    rfl rfl (Or.inl rfl) rfl

/-- C4: whenever the pipeline returns a parsed object (a non-error
result), the object's `total` field is present and numeric in Python's
sense (an instance of int or float, which includes booleans, see C10);
it is never a list, a string, or absent. -/
theorem returned_total_is_numeric (out rcpt : String) (obj : Json)
    (h : process_receipt out rcpt = .ok obj) :
    ∃ t, obj.getKeyJ "total" = some t ∧ isNumVal t = true := by
  cases hx : extract (stripAssistant out) with
  | none =>
      have hev : process_receipt out rcpt =
          .notFound (stripAssistant out) := by
        simp [process_receipt, hx]
      rw [hev] at h
      exact absurd h (by simp)
  | some cand =>
      cases hp : jsonParse cand with
      | none =>
          have hev : process_receipt out rcpt =
              .invalidJson (stripAssistant out) cand := by
            simp [process_receipt, hx, hp]
          rw [hev] at h
          exact absurd h (by simp)
      | some pobj =>
          cases hr : repair pobj rcpt with
          | error e =>
              have hev : process_receipt out rcpt = .pythonError e := by
                simp [process_receipt, hx, hp, hr]
              rw [hev] at h
              exact absurd h (by simp)
          | ok r =>
              have hev : process_receipt out rcpt = .ok r := by
                simp [process_receipt, hx, hp, hr]
              rw [hev] at h
              injection h with h2
              rw [h2] at hr
              obtain ⟨kvs, rfl, hnum⟩ := repair_ok_inv pobj rcpt obj hr
              cases hg : getKey kvs "total" with
              | none => rw [hg] at hnum; simp [isNumPy] at hnum
              | some t =>
                  rw [hg] at hnum
                  exact ⟨t, by simp [Json.getKeyJ, hg], hnum⟩

/-- C4 witness: a concrete successful run whose returned total is the
number 3.5. -/
theorem returned_total_is_numeric_witness :
    ∃ t, (Json.jobj [("total", Json.jnum (mkQ 7 2))]).getKeyJ "total" =
      some t ∧ isNumVal t = true :=
  returned_total_is_numeric "\x7b\"total\": 3.5\x7d" ""
    (.jobj [("total", .jnum (mkQ 7 2))]) rfl

/-- C5: when the parsed `total` is a list, the type test of line 92
rejects it, the object routes into the recovery paths, and any object
the repair step returns carries a number under `total` — never the
list. -/
theorem list_total_never_returned (kvs : List (String × Json))
    (rcpt : String) (ys : List Json) (r : Json)
    (h1 : getKey kvs "total" = some (.jarr ys))
    (h2 : repair (.jobj kvs) rcpt = .ok r) :
    ∃ q, r.getKeyJ "total" = some (.jnum q) := by
  have hn : isNumPy (getKey kvs "total") = false := by rw [h1]; rfl
  cases ha : totalAnchorMatch rcpt with
  | some grp =>
      rw [repair_of_anchor kvs rcpt grp hn ha] at h2
      injection h2 with h3
      refine ⟨(pyFloatOfString grp).getD (Q.ofNat 0), ?_⟩
      rw [← h3]
      simp [Json.getKeyJ, getKey_upsert_self]
  | none =>
      cases hs : sumItems (getKey kvs "items") with
      | error e =>
          rw [repair_of_sum_err kvs rcpt e hn ha hs] at h2
          exact absurd h2 (by simp)
      | ok s =>
          rw [repair_of_sum kvs rcpt s hn ha hs] at h2
          injection h2 with h3
          refine ⟨round2 s, ?_⟩
          rw [← h3]
          simp [Json.getKeyJ, getKey_upsert_self]

/-- C5 witness: a list-typed total with an anchor in the receipt text;
the returned total is the number 3. -/
theorem list_total_never_returned_witness :
    ∃ q, (Json.jobj [("total", Json.jnum (mkQ 3 1))]).getKeyJ "total" =
      some (Json.jnum q) :=
  list_total_never_returned [("total", .jarr [.jnum (Q.ofNat 1)])]
    "TOTAL: 3" [.jnum (Q.ofNat 1)]
    (.jobj [("total", .jnum (mkQ 3 1))]) rfl rfl

/-- C6 (amended): `extract` returns the inclusive span from the first
`{` to the last `}` exactly when the first `{` occurs before the last
`}`, and `NotFound` (`none`) otherwise — in particular when no `{` or
no `}` exists, but also (contrary to the claim's "exactly when") when
both braces exist yet every `}` precedes every `{`, as the
counterexample shows. -/
theorem extract_first_last_brace_span (t : String) :
    extract t =
      match firstIdx '{' t.data, lastIdx '}' t.data with
      | some i, some j =>
          if i < j then
            some (String.mk ((t.data.drop i).take (j + 1 - i)))
          else none
      | some _, none => none
      | none, _ => none := by
  cases hl : lastIdx '}' t.data with
  | none =>
      cases hf : firstIdx '{' t.data with
      | none => simp [extract, braceSearch, hl, hf]
      | some i => simp [extract, braceSearch, hl, hf]
  | some j =>
      cases hf : firstIdx '{' t.data with
      | none =>
          simp [extract, braceSearch, hl, hf,
            firstIdx_take_none '{' t.data j hf]
      | some i =>
          by_cases hij : i < j
          · simp [extract, braceSearch, hl, hf, hij,
              firstIdx_take_lt '{' t.data i j hf hij]
          · simp [extract, braceSearch, hl, hf, hij,
              firstIdx_take_ge '{' t.data i j hf (by omega)]

/-- C6 counterexample: the input contains both a `{` and a `}`, yet
`extract` reports no match, because the only `}` precedes the only
`{`. -/
theorem extract_none_despite_both_braces :
    extract "\x7da\x7b" = none ∧ '{' ∈ "\x7da\x7b".data ∧ '}' ∈ "\x7da\x7b".data :=
  ⟨rfl, by decide, by decide⟩

/-- C7: whenever the extracted envelope fails to parse as JSON, the
pipeline returns the typed `invalidJson` result carrying both the
(stripped) raw model output and the extracted candidate; it does not
crash and returns no parsed object. -/
theorem invalid_json_reported_not_fatal (out rcpt cand : String)
    (h1 : extract (stripAssistant out) = some cand)
    (h2 : jsonParse cand = none) :
    process_receipt out rcpt = .invalidJson (stripAssistant out) cand := by
  simp [process_receipt, h1, h2]

/-- C7 witness: the spec's unbalanced-envelope example; the stray
trailing `}` makes the candidate unparseable and the run surfaces
`invalidJson`. -/
theorem invalid_json_reported_not_fatal_witness :
    process_receipt "Sure! Here you go: \x7b\"total\": 5\x7d and more \x7d" "x" =
      .invalidJson "Sure! Here you go: \x7b\"total\": 5\x7d and more \x7d"
        "\x7b\"total\": 5\x7d and more \x7d" :=
  invalid_json_reported_not_fatal
    "Sure! Here you go: \x7b\"total\": 5\x7d and more \x7d" "x"
    "\x7b\"total\": 5\x7d and more \x7d" rfl rfl

/-- C8: repair is idempotent on its own output: an object it returned
(whose total is by then numeric) passes the type test on a second run
with the same receipt text and is returned unchanged. -/
theorem repair_idempotent_on_repaired_output (obj : Json) (rcpt : String)
    (r : Json) (h : repair obj rcpt = .ok r) :
    repair r rcpt = .ok r := by
  obtain ⟨kvs, rfl, hnum⟩ := repair_ok_inv obj rcpt r h
  exact repair_of_num kvs rcpt hnum

/-- C8 witness: repairing the already-repaired object of a concrete
Path A run leaves it unchanged. -/
theorem repair_idempotent_on_repaired_output_witness :
    repair (.jobj [("total", .jnum (mkQ 5 1))]) "TOTAL: 5" =
      .ok (.jobj [("total", .jnum (mkQ 5 1))]) :=
  repair_idempotent_on_repaired_output (.jobj [("total", .jstr "x")])
    "TOTAL: 5" (.jobj [("total", .jnum (mkQ 5 1))]) rfl

/-- C9 (amended): the literal captured by the Path A anchor regex
consists of digits and dots — possibly SEVERAL dots, since the class
`[\d\.]+` does not bound them (the claim's "at most one decimal point"
is refuted by the counterexample) — and whenever the captured literal
does not parse as a float, repair assigns total = 0.0 instead of
raising. -/
theorem anchor_literal_digits_dots_zero_default
    (kvs : List (String × Json)) (rcpt grp : String)
    (h1 : isNumPy (getKey kvs "total") = false)
    (h2 : totalAnchorMatch rcpt = some grp) :
    (grp.data ≠ [] ∧ ∀ c ∈ grp.data, isDigitDot c = true) ∧
      (pyFloatOfString grp = none →
        repair (.jobj kvs) rcpt =
          .ok (.jobj (upsert kvs "total" (.jnum (Q.ofNat 0))))) := by
  refine ⟨scanAnchor_group rcpt.data grp h2, fun hpf => ?_⟩
  rw [repair_of_anchor kvs rcpt grp h1 h2, hpf]
  rfl

/-- C9 counterexample: the captured literal `1.2.3` holds two decimal
points, refuting "digits and at most one decimal point"; float parsing
fails on it and repair falls back to total = 0.0. -/
theorem anchor_literal_two_dots :
    totalAnchorMatch "TOTAL: 1.2.3" = some "1.2.3" ∧
      "1.2.3".data.count '.' = 2 ∧
      repair (.jobj [("total", .jstr "u")]) "TOTAL: 1.2.3" =
        .ok (.jobj [("total", .jnum (Q.ofNat 0))]) :=
  ⟨rfl, by decide, rfl⟩

/-- C9 witness: the amended theorem applied at the two-dot literal. -/
theorem anchor_literal_digits_dots_zero_default_witness :
    (("1.2.3".data ≠ [] ∧ ∀ c ∈ "1.2.3".data, isDigitDot c = true) ∧
      (pyFloatOfString "1.2.3" = none →
        repair (.jobj [("total", .jstr "u")]) "TOTAL: 1.2.3" =
          .ok (.jobj [("total", .jnum (Q.ofNat 0))]))) :=
  anchor_literal_digits_dots_zero_default [("total", .jstr "u")]
    "TOTAL: 1.2.3" "1.2.3" rfl rfl

/-- C10: a boolean `total` passes Python's `isinstance(·, (int, float))`
test (bool is a subclass of int), so no recovery path runs and the
object — boolean total included — is returned unchanged. -/
theorem bool_total_treated_numeric_unchanged (kvs : List (String × Json))
    (rcpt : String) (b : Bool)
    (h : getKey kvs "total" = some (.jbool b)) :
    repair (.jobj kvs) rcpt = .ok (.jobj kvs) := by
  apply repair_of_num
  rw [h]
  rfl

/-- C10 witness: `total = true` survives unchanged even though the
receipt text offers an anchor value. -/
theorem bool_total_treated_numeric_unchanged_witness :
    repair (.jobj [("total", .jbool true)]) "TOTAL: 9.99" =
      .ok (.jobj [("total", .jbool true)]) :=
  bool_total_treated_numeric_unchanged [("total", .jbool true)]
    "TOTAL: 9.99" true rfl
